import Mathlib

/-!
# Verification of the Nostr status application's credential vault and relay resolver

This file gives a shallow embedding, over `List Nat` byte strings, of the
core logic of `src/main.rs`:

* the NIP-49-style key cipher used by the register / login closures
  (PBKDF2-HMAC-SHA256 key derivation, ChaCha20-Poly1305 authenticated
  encryption, base64 framing with the `#nip49:` scheme tag);
* the relay topology resolver `connect_to_relays_with_nip65`;
* the bounded event collections (relay list, contact list, timeline);
* the register / login / publish task orchestration on the shared
  application state `NostrStatusAppInternal`.

Bytes are modelled as `Nat` with explicit `% 256` / `% 2 ^ 32` reductions
where the Rust code relies on fixed-width arithmetic.  External
collaborators (the nostr SDK client, secp256k1 key parsing, the GUI) are
abstracted as parameters; the cryptographic primitives, which the Rust
code takes from the `sha2`, `pbkdf2`, `chacha20poly1305` and `base64`
crates, are embedded concretely following their specifications
(FIPS 180-4, RFC 2104, RFC 8018, RFC 8439, RFC 4648).
-/

namespace NostrStatus

/-! ## Byte-string utilities -/

/-- Little-endian serialisation of `n` into exactly `k` bytes. -/
def natToLE : Nat → Nat → List Nat
  | 0, _ => []
  | k + 1, n => n % 256 :: natToLE k (n / 256)

/-- Big-endian serialisation of `n` into exactly `k` bytes. -/
def natToBE : Nat → Nat → List Nat
  | 0, _ => []
  | k + 1, n => natToBE k (n / 256) ++ [n % 256]

/-- Little-endian interpretation of a byte string as a natural number. -/
def leToNat : List Nat → Nat
  | [] => 0
  | b :: r => b + 256 * leToNat r

/-- Pointwise XOR of two byte strings (truncating to the shorter one),
    as produced by stream-cipher encryption. -/
def xorBytes (a b : List Nat) : List Nat :=
  List.zipWith (fun x y => x ^^^ y) a b

/-- Split a byte string into chunks of `k` bytes (the last chunk may be
    shorter).  `k` must be positive. -/
def chunks (k : Nat) (l : List Nat) : List (List Nat) :=
  if h : l = [] ∨ k = 0 then []
  else l.take k :: chunks k (l.drop k)
termination_by l.length
decreasing_by
  simp only [not_or] at h
  have hl : l.length ≠ 0 := fun hz => h.1 (List.length_eq_zero.mp hz)
  have hk : 0 < k := Nat.pos_of_ne_zero h.2
  simp only [List.length_drop]
  omega

/-- Addition modulo `2 ^ 32`, the word arithmetic of SHA-256 and ChaCha20. -/
def add32 (a b : Nat) : Nat := (a + b) % 4294967296

/-- Right rotation of a 32-bit word. -/
def rotr32 (x n : Nat) : Nat :=
  (x / 2 ^ n + x % 2 ^ n * 2 ^ (32 - n)) % 4294967296

/-- Left rotation of a 32-bit word. -/
def rotl32 (x n : Nat) : Nat :=
  (x % 2 ^ (32 - n) * 2 ^ n + x / 2 ^ (32 - n)) % 4294967296

/-- Big-endian 32-bit words of a byte string (groups of four bytes). -/
def bytesToWordsBE : List Nat → List Nat
  | a :: b :: c :: d :: rest => (((a * 256 + b) * 256 + c) * 256 + d) :: bytesToWordsBE rest
  | _ => []

/-- Little-endian 32-bit words of a byte string (groups of four bytes),
    as used by ChaCha20 for its key and nonce. -/
def bytesToWordsLE : List Nat → List Nat
  | a :: b :: c :: d :: rest =>
      (a + b * 256 + c * 65536 + d * 16777216) :: bytesToWordsLE rest
  | _ => []

/-! ## SHA-256 (FIPS 180-4), as used by the `sha2` crate -/

/-- The SHA-256 round constants. -/
def sha256K : List Nat :=
  [1116352408, 1899447441, 3049323471, 3921009573, 961987163, 1508970993,
   2453635748, 2870763221, 3624381080, 310598401, 607225278, 1426881987,
   1925078388, 2162078206, 2614888103, 3248222580, 3835390401, 4022224774,
   264347078, 604807628, 770255983, 1249150122, 1555081692, 1996064986,
   2554220882, 2821834349, 2952996808, 3210313671, 3336571891, 3584528711,
   113926993, 338241895, 666307205, 773529912, 1294757372, 1396182291,
   1695183700, 1986661051, 2177026350, 2456956037, 2730485921, 2820302411,
   3259730800, 3345764771, 3516065817, 3600352804, 4094571909, 275423344,
   430227734, 506948616, 659060556, 883997877, 958139571, 1322822218,
   1537002063, 1747873779, 1955562222, 2024104815, 2227730452, 2361852424,
   2428436474, 2756734187, 3204031479, 3329325298]

/-- The SHA-256 initial hash value. -/
def sha256IV : List Nat :=
  [1779033703, 3144134277, 1013904242, 2773480762,
   1359893119, 2600822924, 528734635, 1541459225]

/-- One step of the SHA-256 message-schedule extension: append word `W[i]`
    for `i = w.length` computed from `W[i-2]`, `W[i-7]`, `W[i-15]`, `W[i-16]`. -/
def sha256ScheduleStep (w : List Nat) : List Nat :=
  let i := w.length
  let w15 := w.getD (i - 15) 0
  let w2 := w.getD (i - 2) 0
  let s0 := rotr32 w15 7 ^^^ rotr32 w15 18 ^^^ w15 / 2 ^ 3
  let s1 := rotr32 w2 17 ^^^ rotr32 w2 19 ^^^ w2 / 2 ^ 10
  w ++ [(w.getD (i - 16) 0 + s0 + w.getD (i - 7) 0 + s1) % 4294967296]

/-- The 64-word message schedule of one 16-word block. -/
def sha256Schedule (block : List Nat) : List Nat :=
  (List.range 48).foldl (fun w _ => sha256ScheduleStep w) block

/-- One SHA-256 compression round on the working state `[a,b,c,d,e,f,g,h]`. -/
def sha256Round (w : List Nat) (st : List Nat) (t : Nat) : List Nat :=
  match st with
  | a :: b :: c :: d :: e :: f :: g :: h :: _ =>
    let s1 := rotr32 e 6 ^^^ rotr32 e 11 ^^^ rotr32 e 25
    let ch := e &&& f ^^^ (2 ^ 32 - 1 - e) &&& g
    let t1 := (h + s1 + ch + sha256K.getD t 0 + w.getD t 0) % 4294967296
    let s0 := rotr32 a 2 ^^^ rotr32 a 13 ^^^ rotr32 a 22
    let mj := a &&& b ^^^ a &&& c ^^^ b &&& c
    let t2 := (s0 + mj) % 4294967296
    [(t1 + t2) % 4294967296, a, b, c, (d + t1) % 4294967296, e, f, g]
  | st => st

/-- The SHA-256 compression function on one 64-byte block. -/
def sha256Compress (h : List Nat) (block : List Nat) : List Nat :=
  let w := sha256Schedule (bytesToWordsBE block)
  let fin := (List.range 64).foldl (sha256Round w) h
  List.zipWith add32 h fin

/-- SHA-256 padding: a `0x80` byte, zeros to 56 mod 64, then the bit length
    as a 64-bit big-endian integer. -/
def sha256Pad (msg : List Nat) : List Nat :=
  msg ++ 0x80 :: List.replicate ((119 - msg.length % 64) % 64) 0 ++ natToBE 8 (msg.length * 8)

/-- The SHA-256 digest (32 bytes) of a byte string. -/
def sha256 (msg : List Nat) : List Nat :=
  (((chunks 64 (sha256Pad msg)).foldl sha256Compress sha256IV).map (natToBE 4)).flatten

/-! ## HMAC-SHA256 (RFC 2104) and PBKDF2 (RFC 8018), as used by `pbkdf2_hmac` -/

/-- HMAC-SHA256 of `msg` under `key`. -/
def hmacSha256 (key msg : List Nat) : List Nat :=
  let k0 := if 64 < key.length then sha256 key else key
  let kpad := k0 ++ List.replicate (64 - k0.length) 0
  let ipad := kpad.map (fun b => b ^^^ 0x36)
  let opad := kpad.map (fun b => b ^^^ 0x5c)
  sha256 (opad ++ sha256 (ipad ++ msg))

/-- The iterated XOR accumulation inside one PBKDF2 block:
    `u` is the previous `U_j`, `acc` the running XOR, `n` the remaining
    iteration count. -/
def pbkdf2Inner (pass : List Nat) : List Nat → List Nat → Nat → List Nat
  | _, acc, 0 => acc
  | u, acc, n + 1 =>
    let u' := hmacSha256 pass u
    pbkdf2Inner pass u' (xorBytes acc u') n

/-- One PBKDF2-HMAC-SHA256 output block `T_idx` (32 bytes). -/
def pbkdf2Block (pass salt : List Nat) (iters idx : Nat) : List Nat :=
  let u1 := hmacSha256 pass (salt ++ natToBE 4 idx)
  pbkdf2Inner pass u1 u1 (iters - 1)

/-- PBKDF2-HMAC-SHA256 with `iters` iterations, producing `dkLen` bytes. -/
def pbkdf2HmacSha256 (pass salt : List Nat) (iters dkLen : Nat) : List Nat :=
  (((List.range ((dkLen + 31) / 32)).map
      (fun i => pbkdf2Block pass salt iters (i + 1))).flatten).take dkLen

/-- The key derivation performed by both the register and the login closure:
    `pbkdf2::pbkdf2_hmac::<Sha256>(passphrase.as_bytes(), &salt, 100_000, &mut [0u8; 32])`. -/
def deriveKey (pass salt : List Nat) : List Nat :=
  pbkdf2HmacSha256 pass salt 100000 32

/-! ## ChaCha20 (RFC 8439), as used by the `chacha20poly1305` crate -/

/-- The ChaCha20 quarter round on four words. -/
def chachaQr (a b c d : Nat) : Nat × Nat × Nat × Nat :=
  let a := add32 a b
  let d := rotl32 (d ^^^ a) 16
  let c := add32 c d
  let b := rotl32 (b ^^^ c) 12
  let a := add32 a b
  let d := rotl32 (d ^^^ a) 8
  let c := add32 c d
  let b := rotl32 (b ^^^ c) 7
  (a, b, c, d)

/-- The quarter round applied to state positions `i0 i1 i2 i3`. -/
def chachaQround (s : List Nat) (i0 i1 i2 i3 : Nat) : List Nat :=
  let r := chachaQr (s.getD i0 0) (s.getD i1 0) (s.getD i2 0) (s.getD i3 0)
  (((s.set i0 r.1).set i1 r.2.1).set i2 r.2.2.1).set i3 r.2.2.2

/-- One ChaCha20 double round: four column rounds then four diagonal rounds. -/
def chachaDoubleRound (s : List Nat) : List Nat :=
  let s := chachaQround s 0 4 8 12
  let s := chachaQround s 1 5 9 13
  let s := chachaQround s 2 6 10 14
  let s := chachaQround s 3 7 11 15
  let s := chachaQround s 0 5 10 15
  let s := chachaQround s 1 6 11 12
  let s := chachaQround s 2 7 8 13
  chachaQround s 3 4 9 14

/-- `n` ChaCha20 double rounds. -/
def chachaRounds : Nat → List Nat → List Nat
  | 0, s => s
  | n + 1, s => chachaRounds n (chachaDoubleRound s)

/-- The initial ChaCha20 state for a 32-byte key, a 12-byte nonce and a
    block counter. -/
def chachaInit (key nonce : List Nat) (ctr : Nat) : List Nat :=
  [0x61707865, 0x3320646e, 0x79622d32, 0x6b206574] ++
    bytesToWordsLE key ++ [ctr % 4294967296] ++ bytesToWordsLE nonce

/-- One 64-byte ChaCha20 keystream block. -/
def chachaBlock (key nonce : List Nat) (ctr : Nat) : List Nat :=
  let st0 := chachaInit key nonce ctr
  ((List.zipWith add32 (chachaRounds 10 st0) st0).map (natToLE 4)).flatten

/-- `n` consecutive keystream blocks starting at block counter `ctr`. -/
def chachaBlocks (key nonce : List Nat) : Nat → Nat → List Nat
  | _, 0 => []
  | ctr, n + 1 => chachaBlock key nonce ctr ++ chachaBlocks key nonce (ctr + 1) n

/-- The ChaCha20 keystream of length `len`, starting at block counter 1
    (the AEAD construction reserves block 0 for the Poly1305 key). -/
def chachaKeystream (key nonce : List Nat) (len : Nat) : List Nat :=
  (chachaBlocks key nonce 1 ((len + 63) / 64)).take len

/-! ## Poly1305 (RFC 8439) -/

/-- The Poly1305 prime `2 ^ 130 - 5`. -/
def polyP : Nat := 2 ^ 130 - 5

/-- Clamping of the `r` part of the one-time key. -/
def polyClampR (rbytes : List Nat) : Nat :=
  leToNat rbytes &&& 0x0ffffffc0ffffffc0ffffffc0fffffff

/-- Absorb the 16-byte chunks of the message into the accumulator.  Each
    chunk is read little-endian with a `0x01` byte appended. -/
def polyAbsorb (r : Nat) : Nat → List (List Nat) → Nat
  | acc, [] => acc
  | acc, c :: rest => polyAbsorb r ((acc + leToNat c + 2 ^ (8 * c.length)) * r % polyP) rest

/-- The Poly1305 tag (16 bytes) of `msg` under the 32-byte one-time key `otk`. -/
def poly1305 (otk msg : List Nat) : List Nat :=
  let r := polyClampR (otk.take 16)
  let s := leToNat (otk.drop 16)
  natToLE 16 ((polyAbsorb r 0 (chunks 16 msg) + s) % 2 ^ 128)

/-! ## The ChaCha20-Poly1305 AEAD (RFC 8439), i.e. `ChaCha20Poly1305` from
    the `chacha20poly1305` crate.  The Rust code always encrypts with an
    empty associated-data string, so the Poly1305 input carries no AAD
    section (padding a zero-length AAD contributes no bytes). -/

/-- Pad a byte string with zeros to a multiple of 16 bytes. -/
def pad16 (l : List Nat) : List Nat :=
  List.replicate ((16 - l.length % 16) % 16) 0

/-- The Poly1305 input authenticated by the AEAD for ciphertext `ct`
    (empty AAD): `ct ‖ pad16(ct) ‖ le64(0) ‖ le64(|ct|)`. -/
def macData (ct : List Nat) : List Nat :=
  ct ++ pad16 ct ++ natToLE 8 0 ++ natToLE 8 ct.length

/-- AEAD encryption: `cipher.encrypt(nonce, plaintext)`, returning
    ciphertext followed by the 16-byte authentication tag. -/
def aeadEncrypt (key nonce pt : List Nat) : List Nat :=
  let otk := (chachaBlock key nonce 0).take 32
  let ct := xorBytes pt (chachaKeystream key nonce pt.length)
  ct ++ poly1305 otk (macData ct)

/-- AEAD decryption: `cipher.decrypt(nonce, ciphertext_and_tag)`.  Fails
    (returns `none`, the crate's opaque `aead::Error`) when the input is
    shorter than a tag or when the recomputed tag differs from the stored
    one; on success returns the decrypted plaintext. -/
def aeadDecrypt (key nonce ctTag : List Nat) : Option (List Nat) :=
  if ctTag.length < 16 then none
  else
    let ct := ctTag.take (ctTag.length - 16)
    let tag := ctTag.drop (ctTag.length - 16)
    let otk := (chachaBlock key nonce 0).take 32
    if poly1305 otk (macData ct) = tag then
      some (xorBytes ct (chachaKeystream key nonce ct.length))
    else none

/-! ## Base64 (RFC 4648, standard alphabet with padding), as used by
    `base64::engine::general_purpose::STANDARD` -/

/-- The standard base64 alphabet. -/
def b64Alphabet : List Char :=
  "ABCDEFGHIJKLMNOPQRSTUVWXYZabcdefghijklmnopqrstuvwxyz0123456789+/".toList

/-- The character encoding a 6-bit value. -/
def b64EncChar (n : Nat) : Char := b64Alphabet.getD n 'A'

/-- The 6-bit value of an alphabet character (`none` for characters
    outside the alphabet, in particular for `=`). -/
def b64DecChar (c : Char) : Option Nat := b64Alphabet.indexOf? c

/-- Base64 encoding of a byte string. -/
def b64Encode : List Nat → List Char
  | [] => []
  | [a] => [b64EncChar (a / 4), b64EncChar (a % 4 * 16), '=', '=']
  | [a, b] => [b64EncChar (a / 4), b64EncChar (a % 4 * 16 + b / 16), b64EncChar (b % 16 * 4), '=']
  | a :: b :: c :: rest =>
      b64EncChar (a / 4) :: b64EncChar (a % 4 * 16 + b / 16) ::
        b64EncChar (b % 16 * 4 + c / 64) :: b64EncChar (c % 64) :: b64Encode rest

/-- Base64 decoding of a character string; `none` on any input the strict
    standard engine rejects (wrong length, alphabet violations, padding in
    a non-final group, non-canonical trailing bits). -/
def b64Decode : List Char → Option (List Nat)
  | [] => some []
  | c1 :: c2 :: c3 :: c4 :: rest =>
    match b64DecChar c1, b64DecChar c2 with
    | some w, some x =>
      if c3 = '=' then
        if c4 = '=' ∧ rest = [] ∧ x % 16 = 0 then some [w * 4 + x / 16] else none
      else
        match b64DecChar c3 with
        | some y =>
          if c4 = '=' then
            if rest = [] ∧ y % 4 = 0 then some [w * 4 + x / 16, x % 16 * 16 + y / 4] else none
          else
            match b64DecChar c4 with
            | some z =>
              (b64Decode rest).map
                (fun tl => (w * 4 + x / 16) :: (x % 16 * 16 + y / 4) :: (y % 4 * 64 + z) :: tl)
            | none => none
        | none => none
    | _, _ => none
  | _ => none

/-! ## The vault record (`Config`) and the key-cipher closures -/

/-- The on-disk record `config.json`: both fields are strings, modelled as
    character lists. -/
structure Config where
  encrypted_secret_key : List Char
  salt : List Char
deriving DecidableEq

/-- The failure modes of loading and decrypting the vault record.  The Rust
    closures report them as distinct error strings:
    `base64Error` for a `DecodeError` propagated by `?`,
    `unsupportedFormat` for `"設定ファイルのNIP-49フォーマットが無効です。"`,
    `malformedPayload` for `"設定ファイルのNIP-49ペイロードが短すぎます。"`, and
    `decryptionFailed` for `"パスフレーズが正しくありません。"`. -/
inductive CryptoErr where
  | base64Error
  | unsupportedFormat
  | malformedPayload
  | decryptionFailed
deriving DecidableEq

/-- The fixed scheme tag prefixed to the encrypted key (`"#nip49:"`). -/
def nip49Tag : List Char := "#nip49:".toList

/-- UTF-8 encoding of one character, modelling Rust's `str::as_bytes`. -/
def charUtf8 (c : Char) : List Nat :=
  let n := c.toNat
  if n < 0x80 then [n]
  else if n < 0x800 then [0xC0 + n / 64, 0x80 + n % 64]
  else if n < 0x10000 then [0xE0 + n / 4096, 0x80 + n / 64 % 64, 0x80 + n % 64]
  else [0xF0 + n / 262144, 0x80 + n / 4096 % 64, 0x80 + n / 64 % 64, 0x80 + n % 64]

/-- UTF-8 encoding of a string. -/
def strToBytes (s : String) : List Nat :=
  (s.toList.map charUtf8).flatten

/-- The encryption half of the register closure (`main.rs` lines 520-535):
    derive the key from the passphrase and the fresh salt, encrypt the
    32-byte secret under a fresh nonce, append the nonce to the
    ciphertext-with-tag, and store `#nip49:` plus the base64 payload next
    to the base64 salt. -/
def registerEncrypt (pass salt secret nonce : List Nat) : Config :=
  let key := deriveKey pass salt
  let ciphertextWithTag := aeadEncrypt key nonce secret
  let encodedData := ciphertextWithTag ++ nonce
  { encrypted_secret_key := nip49Tag ++ b64Encode encodedData,
    salt := b64Encode salt }

/-- The payload half of the login closure (`main.rs` lines 373-377),
    instrumented with the number of times the authenticated cipher
    (`cipher.decrypt`) is invoked: reject payloads shorter than a nonce,
    split the last 12 bytes off as the nonce, and authenticate-decrypt the
    rest. -/
def decryptPayloadRun (key payload : List Nat) : Except CryptoErr (List Nat) × Nat :=
  if payload.length < 12 then (.error .malformedPayload, 0)
  else
    let ciphertextAndTag := payload.take (payload.length - 12)
    let nonce := payload.drop (payload.length - 12)
    match aeadDecrypt key nonce ciphertextAndTag with
    | some pt => (.ok pt, 1)
    | none => (.error .decryptionFailed, 1)

/-- The result of `decryptPayloadRun` without the instrumentation. -/
def decryptPayload (key payload : List Nat) : Except CryptoErr (List Nat) :=
  (decryptPayloadRun key payload).1

/-- The whole login key-decryption closure (`main.rs` lines 363-380) up to
    the recovered secret bytes, instrumented with the number of
    authenticated-cipher invocations: decode the salt, derive the key,
    check the `#nip49:` scheme tag, base64-decode the payload and decrypt
    it.  (`hex::encode` and `Keys::parse` consume the returned bytes and
    belong to the external nostr crate.) -/
def loginDecryptRun (cfg : Config) (pass : List Nat) : Except CryptoErr (List Nat) × Nat :=
  match b64Decode cfg.salt with
  | none => (.error .base64Error, 0)
  | some saltBytes =>
    let key := deriveKey pass saltBytes
    if nip49Tag.isPrefixOf cfg.encrypted_secret_key then
      match b64Decode (cfg.encrypted_secret_key.drop 7) with
      | none => (.error .base64Error, 0)
      | some decodedBytes => decryptPayloadRun key decodedBytes
    else (.error .unsupportedFormat, 0)

/-- The result of `loginDecryptRun` without the instrumentation. -/
def loginDecrypt (cfg : Config) (pass : List Nat) : Except CryptoErr (List Nat) :=
  (loginDecryptRun cfg pass).1

instance {ε α : Type} [DecidableEq ε] [DecidableEq α] : DecidableEq (Except ε α) := fun x y =>
  match x, y with
  | .ok a, .ok b =>
    if h : a = b then isTrue (by rw [h]) else isFalse (fun hc => h (by injection hc))
  | .error a, .error b =>
    if h : a = b then isTrue (by rw [h]) else isFalse (fun hc => h (by injection hc))
  | .ok _, .error _ => isFalse (fun hc => by injection hc)
  | .error _, .ok _ => isFalse (fun hc => by injection hc)

/-! ## Relay-list events and the bounded collections

The nostr client is an external collaborator; what the code observes of it
is the sequence of notifications its `notifications()` stream delivers.  A
bounded collection subscribes, races a sleep against the stream, and
unsubscribes.  The deadline is modelled by a `budget`: the number of
stream items delivered before the 10-second sleep fires; items past the
budget arrive too late and are never seen by the race. -/

/-- The NIP-65 per-relay policy (`nostr::RelayMetadata`). -/
inductive RelayPolicy where
  | read
  | write
deriving DecidableEq

/-- The event tags the code inspects. -/
inductive NTag where
  | relayMetadata (url : String) (policy : Option RelayPolicy)
  | publicKey (pk : String)
  | identifier (d : String)
  | otherTag
deriving DecidableEq

/-- An inbound event: its kind number, author public key, tags and content.
    (Kind `10002` is `Kind::RelayList`, `3` is `Kind::ContactList`, and
    `30315` is the NIP-38 status kind.) -/
structure NEvent where
  kind : Nat
  pubkey : String
  tags : List NTag
  content : String
deriving DecidableEq

/-- One item of the notification stream: an event notification, a
    notification of another variant (skipped by the `if let`), or a
    receive error that ends the `while let Ok(..)` loop. -/
inductive RecvItem where
  | ev (e : NEvent)
  | nonEvent
  | recvErr
deriving DecidableEq

/-- How the race between the sleep and the notification loop ended. -/
inductive CollectExit where
  | deadline
  | matchedEarly
  | streamErrored
deriving DecidableEq

/-- The network actions of a bounded collection that concern subscription
    lifecycle. -/
inductive NetAction where
  | subscribeAct (sid : Nat)
  | unsubscribeAct (sid : Nat)
deriving DecidableEq

/-- Convert a parsed relay-metadata policy to the string the code stores
    (`Some "write"`, `Some "read"` or `None`). -/
def policyString (p : Option RelayPolicy) : Option String :=
  match p with
  | some .write => some "write"
  | some .read => some "read"
  | none => none

/-- Parse the `RelayMetadata` tags of a relay-list event into
    `(url, policy)` pairs, exactly as the tag loop of
    `connect_to_relays_with_nip65` pushes them. -/
def parseRelayTags (tags : List NTag) : List (String × Option String) :=
  tags.filterMap fun t =>
    match t with
    | .relayMetadata url policy => some (url, policyString policy)
    | _ => none

/-- The notification loop of the relay-list collection: skip non-event
    notifications, stop on a receive error, and break on the first
    `RelayList` event authored by `pk`, returning its parsed tags and the
    `received_nip65_event` flag. -/
def relayListLoop (pk : String) : List RecvItem → List (String × Option String) × Bool × CollectExit
  | [] => ([], false, .deadline)
  | .recvErr :: _ => ([], false, .streamErrored)
  | .nonEvent :: rest => relayListLoop pk rest
  | .ev e :: rest =>
    if e.kind = 10002 ∧ e.pubkey = pk then (parseRelayTags e.tags, true, .matchedEarly)
    else relayListLoop pk rest

/-- The bounded relay-list collection (`main.rs` lines 197-231): subscribe,
    race the deadline against the loop over the first `budget` delivered
    items, then unsubscribe on whichever exit was taken. -/
def relayListCollect (pk : String) (stream : List RecvItem) (budget : Nat) :
    (List (String × Option String) × Bool) × List NetAction :=
  let r := relayListLoop pk (stream.take budget)
  ((r.1, r.2.1),
    match r.2.2 with
    | .deadline => [.subscribeAct 0, .unsubscribeAct 0]
    | .matchedEarly => [.subscribeAct 0, .unsubscribeAct 0]
    | .streamErrored => [.subscribeAct 0, .unsubscribeAct 0])

/-- The notification loop of the contact-list collection: break on the
    first `ContactList` event authored by `pk`, collecting the public keys
    of its `p` tags. -/
def contactListLoop (pk : String) : List RecvItem → List String × Bool × CollectExit
  | [] => ([], false, .deadline)
  | .recvErr :: _ => ([], false, .streamErrored)
  | .nonEvent :: rest => contactListLoop pk rest
  | .ev e :: rest =>
    if e.kind = 3 ∧ e.pubkey = pk then
      (e.tags.filterMap (fun t => match t with | .publicKey p => some p | _ => none),
        true, .matchedEarly)
    else contactListLoop pk rest

/-- The bounded contact-list collection (`main.rs` lines 392-414). -/
def contactListCollect (pk : String) (stream : List RecvItem) (budget : Nat) :
    (List String × Bool) × List NetAction :=
  let r := contactListLoop pk (stream.take budget)
  ((r.1, r.2.1),
    match r.2.2 with
    | .deadline => [.subscribeAct 1, .unsubscribeAct 1]
    | .matchedEarly => [.subscribeAct 1, .unsubscribeAct 1]
    | .streamErrored => [.subscribeAct 1, .unsubscribeAct 1])

/-- The `d` tag of a status event, defaulting to `"general"`
    (`find_map` + `unwrap_or_else` in the timeline loops). -/
def statusDTag (tags : List NTag) : String :=
  (tags.findSome? fun t => match t with | .identifier d => some d | _ => none).getD "general"

/-- The notification loop of a timeline collection: collect every kind
    `30315` event (author, `d` tag, content); the loop never breaks, so it
    runs until a receive error or until the deadline. -/
def timelineLoop : List RecvItem → List (String × String × String) → List (String × String × String) × CollectExit
  | [], acc => (acc, .deadline)
  | .recvErr :: _, acc => (acc, .streamErrored)
  | .nonEvent :: rest, acc => timelineLoop rest acc
  | .ev e :: rest, acc =>
    if e.kind = 30315 then
      timelineLoop rest (acc ++ [(e.pubkey, statusDTag e.tags, e.content)])
    else timelineLoop rest acc

/-- The bounded timeline collection (`main.rs` lines 425-442 and 637-654). -/
def timelineCollect (stream : List RecvItem) (budget : Nat) :
    List (String × String × String) × List NetAction :=
  let r := timelineLoop (stream.take budget) []
  (r.1,
    match r.2 with
    | .deadline => [.subscribeAct 2, .unsubscribeAct 2]
    | .matchedEarly => [.subscribeAct 2, .unsubscribeAct 2]
    | .streamErrored => [.subscribeAct 2, .unsubscribeAct 2])

/-! ## The relay topology resolver (`connect_to_relays_with_nip65`) -/

/-- Relay-resolution failure: `"接続できるリレーがありません。"`. -/
inductive ResolveError where
  | noReachableRelays
deriving DecidableEq

/-- The hardcoded fallback relay list (`main.rs` line 268). -/
def fallbackRelays : List String :=
  ["wss://relay.damus.io", "wss://relay.nostr.wirednet.jp", "wss://yabu.me"]

/-- The NIP-65 selection-and-add loop (`main.rs` lines 251-260): attempt to
    add every relay whose policy is `Some "write"` or `None`, keeping the
    URLs whose add succeeded (`addOk`). -/
def selectNip65 (addOk : String → Bool) : List (String × Option String) → List String
  | [] => []
  | (url, policy) :: rest =>
    if policy = some "write" ∨ policy = none then
      if addOk url then url :: selectNip65 addOk rest else selectNip65 addOk rest
    else selectNip65 addOk rest

/-- The set of relays present in the client pool after the Decide and
    Commit steps: the selected NIP-65 relays when a relay-list event was
    received and its parsed descriptor list is nonempty, the fallback list
    otherwise — in both cases minus the relays whose add failed. -/
def resolvedPool (received : Bool) (nip65 : List (String × Option String))
    (addOk : String → Bool) : List String :=
  if received && !nip65.isEmpty then selectNip65 addOk nip65
  else fallbackRelays.filter addOk

/-- The Decide + Commit + error-policy steps of
    `connect_to_relays_with_nip65` (`main.rs` lines 244-290): resolve the
    relay set and fail with `NoReachableRelays` when the pool ends up
    empty. -/
def resolveDecide (received : Bool) (nip65 : List (String × Option String))
    (addOk : String → Bool) : Except ResolveError (List String) :=
  let pool := resolvedPool received nip65 addOk
  if pool.length = 0 then .error .noReachableRelays else .ok pool

/-- The whole resolver: run the bounded relay-list collection against the
    discovery relays' notification stream, then decide and commit. -/
def connectToRelaysWithNip65 (pk : String) (stream : List RecvItem) (budget : Nat)
    (addOk : String → Bool) : Except ResolveError (List String) :=
  let c := relayListCollect pk stream budget
  resolveDecide c.1.2 c.1.1 addOk

/-! ## The shared application state and the task orchestration -/

/-- The GUI tab (`AppTab`). -/
inductive AppTab where
  | Home
  | Relays
  | Profile
deriving DecidableEq

/-- The mutex-protected application state `NostrStatusAppInternal`.  The
    nostr `Client` handle is opaque; only its presence matters, so
    `nostr_client : Option Unit`.  `my_keys` holds the secret-key bytes of
    the parsed `Keys`. -/
structure AppState where
  is_logged_in : Bool
  status_message_input : String
  secret_key_input : String
  passphrase_input : String
  confirm_passphrase_input : String
  nostr_client : Option Unit
  my_keys : Option (List Nat)
  followed_pubkeys : List String
  followed_pubkeys_display : String
  status_timeline_display : String
  should_repaint : Bool
  is_loading : Bool
  current_tab : AppTab
  connected_relays_display : String
deriving DecidableEq

/-- The state constructed at startup (`main.rs` lines 132-147). -/
def initialState : AppState where
  is_logged_in := false
  status_message_input := ""
  secret_key_input := ""
  passphrase_input := ""
  confirm_passphrase_input := ""
  nostr_client := none
  my_keys := none
  followed_pubkeys := []
  followed_pubkeys_display := ""
  status_timeline_display := ""
  should_repaint := false
  is_loading := false
  current_tab := .Home
  connected_relays_display := ""

/-- The observable effects of one run of the register task: the state after
    the task released the lock for the last time, the vault record written
    to disk (if any), and whether `Keys::parse` and the PBKDF2 derivation
    were reached. -/
structure RegRun where
  state : AppState
  written : Option Config
  parsedSecret : Bool
  derivedKey : Bool
deriving DecidableEq

/-- The register task (`main.rs` lines 508-554).  `pass`, `confirm` and
    `secretInput` are the strings cloned by the click handler; `st` is the
    state the task observes under the lock (the handler has already set
    `is_loading`).  `parseSecret` abstracts `Keys::parse` plus the
    secret-key validity check (external secp256k1 logic), returning the
    32 secret-key bytes; `salt` and `nonce` are the 16 and 12 bytes drawn
    from `OsRng`. -/
def registerTask (pass confirm secretInput : String)
    (parseSecret : String → Option (List Nat)) (salt nonce : List Nat)
    (st : AppState) : RegRun :=
  if pass ≠ confirm then
    { state := { st with is_loading := false, should_repaint := true },
      written := none, parsedSecret := false, derivedKey := false }
  else
    match parseSecret secretInput with
    | none =>
      { state := { st with is_loading := false, should_repaint := true },
        written := none, parsedSecret := true, derivedKey := false }
    | some sk =>
      let cfg := registerEncrypt (strToBytes pass) salt sk nonce
      { state := { st with
          my_keys := some sk, nostr_client := some (), is_logged_in := true,
          current_tab := .Home, is_loading := false, should_repaint := true },
        written := some cfg, parsedSecret := true, derivedKey := true }

/-- Login failure causes, in pipeline order: the key-decryption closure,
    `Keys::parse` on the recovered hex, relay resolution, and the fatal
    `"Failed to fetch contact list (timed out or not found)."`. -/
inductive LoginErr where
  | decryptFailed (e : CryptoErr)
  | keyParseFailed
  | resolveFailed (e : ResolveError)
  | contactListFailed
deriving DecidableEq

/-- The timeline portion of the login task (`main.rs` lines 422-451):
    `final_timeline_display` starts as `"No timeline available."`, the
    fetch only runs when some pubkeys are followed, and an empty collection
    is rendered as a message rather than reported as an error. -/
def loginTimelineDisplay (followed : List String)
    (collected : List (String × String × String)) : String :=
  if followed.isEmpty then "No timeline available."
  else if collected.isEmpty then "No NIP-38 statuses found for followed users."
  else String.intercalate "\n\n"
    (collected.map fun s => s.1 ++ " (" ++ s.2.1 ++ ") says: " ++ s.2.2)

/-- The observable effects of one run of the login task: the final state
    and whether `Client::shutdown` was invoked on the failure path. -/
structure LoginRun where
  state : AppState
  shutdownCalled : Bool
deriving DecidableEq

/-- The login task (`main.rs` lines 359-488), for a caller-visible state
    `st` (the click handler has already set `is_loading`).  The stages that
    belong to external collaborators enter as parameters: `keysRes` is the
    outcome of the key-decryption closure (`loginDecrypt` of the on-disk
    record and the typed passphrase), `parseOk` the success of
    `Keys::parse` on the recovered hex, `received65`/`nip65`/`addOk` the
    relay-resolution inputs, `contact` the collected contact list (`none`
    when no matching event arrived in time) and `collected` the collected
    timeline statuses.

    On failure the task takes the client out of the *shared state* and
    shuts it down only if one was stored there — the freshly created local
    client was not yet stored, so it is dropped without a shutdown call —
    then clears `is_loading` and requests a repaint. -/
def loginTask (st : AppState) (keysRes : Except CryptoErr (List Nat)) (parseOk : Bool)
    (received65 : Bool) (nip65 : List (String × Option String)) (addOk : String → Bool)
    (contact : Option (List String)) (collected : List (String × String × String)) :
    LoginRun :=
  let pipeline : Except LoginErr (List Nat × List String × List String × String) :=
    match keysRes with
    | .error e => .error (.decryptFailed e)
    | .ok sk =>
      if parseOk then
        match resolveDecide received65 nip65 addOk with
        | .error e => .error (.resolveFailed e)
        | .ok relays =>
          match contact with
          | none => .error .contactListFailed
          | some followed =>
            .ok (sk, relays, followed, loginTimelineDisplay followed collected)
      else .error .keyParseFailed
  match pipeline with
  | .ok r =>
    { state := { st with
        my_keys := some r.1
        nostr_client := some ()
        followed_pubkeys := r.2.2.1
        followed_pubkeys_display := String.intercalate "\n" r.2.2.1
        status_timeline_display := r.2.2.2
        connected_relays_display :=
          "--- 現在接続中のリレー ---\n" ++ String.intercalate "\n" r.2.1
        is_logged_in := true
        current_tab := .Home
        is_loading := false
        should_repaint := true },
      shutdownCalled := false }
  | .error _ =>
    { state := { st with nostr_client := none, is_loading := false, should_repaint := true },
      shutdownCalled := st.nostr_client.isSome }

/-! ## The publish-status handler -/

/-- `MAX_STATUS_LENGTH` (`main.rs` line 31). -/
def MAX_STATUS_LENGTH : Nat := 140

/-- What the publish-status click handler does with the typed text: either
    reject it locally (clearing `is_loading` and returning before the
    network task is spawned) or spawn the task that builds and sends the
    kind-`30315` event with the given content and `d` tag. -/
inductive PublishOutcome where
  | rejected
  | sendEvent (kind : Nat) (content : String) (dTag : String)
deriving DecidableEq

/-- The publish-status handler (`main.rs` lines 576-611): count the
    characters of the status text (`chars().count()`, i.e. Unicode scalar
    values); if it exceeds `MAX_STATUS_LENGTH`, reject before any network
    call; otherwise build the NIP-38 event with the default `"general"`
    category and send it. -/
def publishStatusStep (statusMessage : String) : PublishOutcome :=
  if MAX_STATUS_LENGTH < statusMessage.length then .rejected
  else .sendEvent 30315 statusMessage "general"

/-! ## Length and range lemmas for the byte pipeline -/

theorem length_natToLE (k : Nat) : ∀ n, (natToLE k n).length = k := by
  induction k with
  | zero => intro n; rfl
  | succ k ih => intro n; simp [natToLE, ih]

theorem mem_natToLE_lt (k : Nat) : ∀ n, ∀ b ∈ natToLE k n, b < 256 := by
  induction k with
  | zero => intro n b hb; simp [natToLE] at hb
  | succ k ih =>
    intro n b hb
    simp only [natToLE, List.mem_cons] at hb
    rcases hb with hb | hb
    · omega
    · exact ih _ b hb

theorem length_natToBE (k : Nat) : ∀ n, (natToBE k n).length = k := by
  induction k with
  | zero => intro n; rfl
  | succ k ih => intro n; simp [natToBE, ih]

theorem length_flatten_map {α : Type} (f : α → List Nat) (c : Nat)
    (hf : ∀ x, (f x).length = c) : ∀ l : List α, ((l.map f).flatten).length = c * l.length := by
  intro l
  induction l with
  | nil => simp
  | cons a l ih => simp [hf, ih, Nat.mul_succ, Nat.add_comm]

theorem foldl_invariant {α β : Type} (P : α → Prop) (f : α → β → α)
    (hf : ∀ s x, P s → P (f s x)) : ∀ (l : List β) (s : α), P s → P (l.foldl f s) := by
  intro l
  induction l with
  | nil => intro s hs; exact hs
  | cons a l ih => intro s hs; exact ih (f s a) (hf s a hs)

theorem length_sha256Round (w st : List Nat) (t : Nat) (h : st.length = 8) :
    (sha256Round w st t).length = 8 := by
  rcases st with _ | ⟨a, _ | ⟨b, _ | ⟨c, _ | ⟨d, _ | ⟨e, _ | ⟨f, _ | ⟨g, _ | ⟨hh, rest⟩⟩⟩⟩⟩⟩⟩⟩ <;>
    simp_all [sha256Round]

theorem length_sha256Compress (h block : List Nat) (hl : h.length = 8) :
    (sha256Compress h block).length = 8 := by
  have hfin : ((List.range 64).foldl (sha256Round (sha256Schedule (bytesToWordsBE block))) h).length = 8 :=
    foldl_invariant (fun s => s.length = 8) _
      (fun s x hs => length_sha256Round _ s x hs) (List.range 64) h hl
  simp [sha256Compress, hl, hfin]

theorem length_sha256 (msg : List Nat) : (sha256 msg).length = 32 := by
  have h8 : ((chunks 64 (sha256Pad msg)).foldl sha256Compress sha256IV).length = 8 :=
    foldl_invariant (fun s => s.length = 8) sha256Compress
      (fun s x hs => length_sha256Compress s x hs) _ sha256IV rfl
  have := length_flatten_map (natToBE 4) 4 (length_natToBE 4)
      ((chunks 64 (sha256Pad msg)).foldl sha256Compress sha256IV)
  simp only [sha256, this, h8]

theorem length_hmacSha256 (key msg : List Nat) : (hmacSha256 key msg).length = 32 :=
  length_sha256 _

theorem length_xorBytes (a b : List Nat) : (xorBytes a b).length = min a.length b.length := by
  simp [xorBytes]

theorem length_pbkdf2Inner (pass : List Nat) :
    ∀ (n : Nat) (u acc : List Nat), acc.length = 32 → (pbkdf2Inner pass u acc n).length = 32 := by
  intro n
  induction n with
  | zero => intro u acc h; exact h
  | succ n ih =>
    intro u acc h
    simp only [pbkdf2Inner]
    exact ih _ _ (by simp [length_xorBytes, h, length_hmacSha256])

theorem length_pbkdf2Block (pass salt : List Nat) (iters idx : Nat) :
    (pbkdf2Block pass salt iters idx).length = 32 :=
  length_pbkdf2Inner pass _ _ _ (length_hmacSha256 _ _)

theorem length_deriveKey (pass salt : List Nat) : (deriveKey pass salt).length = 32 := by
  simp [deriveKey, pbkdf2HmacSha256, List.range_succ, length_pbkdf2Block]

theorem length_bytesToWordsLE : ∀ l : List Nat, (bytesToWordsLE l).length = l.length / 4
  | [] => by simp [bytesToWordsLE]
  | [_] => by simp [bytesToWordsLE]
  | [_, _] => by simp [bytesToWordsLE]
  | [_, _, _] => by simp [bytesToWordsLE]
  | a :: b :: c :: d :: rest => by
    simp only [bytesToWordsLE, List.length_cons, length_bytesToWordsLE rest]
    omega

theorem length_chachaQround (s : List Nat) (i0 i1 i2 i3 : Nat) :
    (chachaQround s i0 i1 i2 i3).length = s.length := by
  simp [chachaQround]

theorem length_chachaDoubleRound (s : List Nat) :
    (chachaDoubleRound s).length = s.length := by
  simp [chachaDoubleRound, length_chachaQround]

theorem length_chachaRounds : ∀ (n : Nat) (s : List Nat), (chachaRounds n s).length = s.length
  | 0, s => rfl
  | n + 1, s => by
    simp only [chachaRounds, length_chachaRounds n, length_chachaDoubleRound]

theorem length_chachaInit (key nonce : List Nat) (ctr : Nat)
    (hk : key.length = 32) (hn : nonce.length = 12) :
    (chachaInit key nonce ctr).length = 16 := by
  simp [chachaInit, length_bytesToWordsLE, hk, hn]

theorem length_chachaBlock (key nonce : List Nat) (ctr : Nat)
    (hk : key.length = 32) (hn : nonce.length = 12) :
    (chachaBlock key nonce ctr).length = 64 := by
  have hz : (List.zipWith add32 (chachaRounds 10 (chachaInit key nonce ctr))
      (chachaInit key nonce ctr)).length = 16 := by
    simp [length_chachaRounds, length_chachaInit key nonce ctr hk hn]
  have := length_flatten_map (natToLE 4) 4 (length_natToLE 4)
      (List.zipWith add32 (chachaRounds 10 (chachaInit key nonce ctr)) (chachaInit key nonce ctr))
  simp only [chachaBlock, this, hz]

theorem length_chachaBlocks (key nonce : List Nat)
    (hk : key.length = 32) (hn : nonce.length = 12) :
    ∀ (n ctr : Nat), (chachaBlocks key nonce ctr n).length = 64 * n := by
  intro n
  induction n with
  | zero => intro ctr; rfl
  | succ n ih =>
    intro ctr
    simp only [chachaBlocks, List.length_append, ih,
      length_chachaBlock key nonce ctr hk hn]
    ring

theorem length_chachaKeystream (key nonce : List Nat) (len : Nat)
    (hk : key.length = 32) (hn : nonce.length = 12) :
    (chachaKeystream key nonce len).length = len := by
  simp only [chachaKeystream, List.length_take,
    length_chachaBlocks key nonce hk hn]
  omega

theorem mem_chachaBlock_lt (key nonce : List Nat) (ctr : Nat) :
    ∀ b ∈ chachaBlock key nonce ctr, b < 256 := by
  intro b hb
  simp only [chachaBlock, List.mem_flatten, List.mem_map] at hb
  obtain ⟨l, ⟨w, _, rfl⟩, hbl⟩ := hb
  exact mem_natToLE_lt 4 w b hbl

theorem mem_chachaKeystream_lt (key nonce : List Nat) (len : Nat) :
    ∀ b ∈ chachaKeystream key nonce len, b < 256 := by
  intro b hb
  have hb' := List.mem_of_mem_take hb
  clear hb
  generalize (len + 63) / 64 = n at hb'
  generalize 1 = ctr at hb'
  induction n generalizing ctr with
  | zero => simp [chachaBlocks] at hb'
  | succ n ih =>
    simp only [chachaBlocks, List.mem_append] at hb'
    rcases hb' with hb' | hb'
    · exact mem_chachaBlock_lt key nonce ctr b hb'
    · exact ih (ctr + 1) hb'

theorem mem_xorBytes_lt : ∀ (x y : List Nat), (∀ a ∈ x, a < 256) → (∀ a ∈ y, a < 256) →
    ∀ b ∈ xorBytes x y, b < 256
  | [], _, _, _ => by simp [xorBytes]
  | _ :: _, [], _, _ => by simp [xorBytes]
  | p :: pt, q :: qt, hx, hy => by
    intro b hb
    simp only [xorBytes, List.zipWith_cons_cons, List.mem_cons] at hb
    rcases hb with rfl | hb
    · exact Nat.xor_lt_two_pow (n := 8) (hx p (by simp)) (hy q (by simp))
    · exact mem_xorBytes_lt pt qt (fun a ha => hx a (by simp [ha]))
        (fun a ha => hy a (by simp [ha])) b hb

theorem length_poly1305 (otk msg : List Nat) : (poly1305 otk msg).length = 16 :=
  length_natToLE 16 _

theorem mem_poly1305_lt (otk msg : List Nat) : ∀ b ∈ poly1305 otk msg, b < 256 :=
  mem_natToLE_lt 16 _

theorem xorBytes_cancel : ∀ (pt ks : List Nat), pt.length ≤ ks.length →
    xorBytes (xorBytes pt ks) ks = pt
  | [], _, _ => by simp [xorBytes]
  | p :: pt, [], h => by simp at h
  | p :: pt, k :: ks, h => by
    simp only [xorBytes, List.zipWith_cons_cons]
    refine congrArg₂ _ (Nat.xor_cancel_right k p) ?_
    exact xorBytes_cancel pt ks (by simpa using h)

/-- Round trip of the AEAD itself: decrypting what `aeadEncrypt` produced,
    under the same key and nonce, recovers the plaintext. -/
theorem aeadDecrypt_aeadEncrypt (key nonce pt : List Nat)
    (hk : key.length = 32) (hn : nonce.length = 12) :
    aeadDecrypt key nonce (aeadEncrypt key nonce pt) = some pt := by
  have hks : (chachaKeystream key nonce pt.length).length = pt.length :=
    length_chachaKeystream key nonce pt.length hk hn
  have hct : (xorBytes pt (chachaKeystream key nonce pt.length)).length = pt.length := by
    simp [length_xorBytes, hks]
  have htag : (poly1305 ((chachaBlock key nonce 0).take 32)
      (macData (xorBytes pt (chachaKeystream key nonce pt.length)))).length = 16 :=
    length_poly1305 _ _
  simp only [aeadEncrypt, aeadDecrypt, List.length_append, hct, htag]
  rw [if_neg (by omega)]
  have hsplit : pt.length + 16 - 16 = (xorBytes pt (chachaKeystream key nonce pt.length)).length := by
    omega
  rw [hsplit, List.take_left, List.drop_left, if_pos rfl, hct]
  exact congrArg some (xorBytes_cancel pt _ (by omega))

/-! ## Base64 round trip -/

theorem b64DecChar_b64EncChar : ∀ s : Nat, s < 64 → b64DecChar (b64EncChar s) = some s := by
  decide

theorem b64EncChar_ne_pad : ∀ s : Nat, s < 64 → b64EncChar s ≠ '=' := by
  decide

theorem b64Decode_b64Encode : ∀ l : List Nat, (∀ b ∈ l, b < 256) →
    b64Decode (b64Encode l) = some l
  | [], _ => rfl
  | [a], h => by
    have ha : a < 256 := h a (by simp)
    have h1 := b64DecChar_b64EncChar (a / 4) (by omega)
    have h2 := b64DecChar_b64EncChar (a % 4 * 16) (by omega)
    have hc : a % 4 * 16 % 16 = 0 := by omega
    simp [b64Encode, b64Decode, h1, h2, hc]
    omega
  | [a, b], h => by
    have ha : a < 256 := h a (by simp)
    have hb : b < 256 := h b (by simp)
    have h1 := b64DecChar_b64EncChar (a / 4) (by omega)
    have h2 := b64DecChar_b64EncChar (a % 4 * 16 + b / 16) (by omega)
    have h3 := b64DecChar_b64EncChar (b % 16 * 4) (by omega)
    have h3' := b64EncChar_ne_pad (b % 16 * 4) (by omega)
    have hc : b % 16 * 4 % 4 = 0 := by omega
    simp [b64Encode, b64Decode, h1, h2, h3, h3', hc]
    omega
  | a :: b :: c :: rest, h => by
    have ha : a < 256 := h a (by simp)
    have hb : b < 256 := h b (by simp)
    have hc : c < 256 := h c (by simp)
    have h1 := b64DecChar_b64EncChar (a / 4) (by omega)
    have h2 := b64DecChar_b64EncChar (a % 4 * 16 + b / 16) (by omega)
    have h3 := b64DecChar_b64EncChar (b % 16 * 4 + c / 64) (by omega)
    have h4 := b64DecChar_b64EncChar (c % 64) (by omega)
    have h3' := b64EncChar_ne_pad (b % 16 * 4 + c / 64) (by omega)
    have h4' := b64EncChar_ne_pad (c % 64) (by omega)
    have ih := b64Decode_b64Encode rest (fun x hx => h x (by simp [hx]))
    simp [b64Encode, b64Decode, h1, h2, h3, h4, h3', h4', ih]
    omega

/-! ## Round trip of the stored vault record (claim C1) -/

theorem nip49Tag_isPrefixOf_append (l : List Char) :
    nip49Tag.isPrefixOf (nip49Tag ++ l) = true := by
  rw [List.isPrefixOf_iff_prefix]
  exact List.prefix_append nip49Tag l

theorem drop7_nip49Tag_append (l : List Char) : (nip49Tag ++ l).drop 7 = l :=
  List.drop_left' (by decide)

theorem length_aeadEncrypt (key nonce pt : List Nat)
    (hk : key.length = 32) (hn : nonce.length = 12) :
    (aeadEncrypt key nonce pt).length = pt.length + 16 := by
  simp [aeadEncrypt, length_xorBytes, length_poly1305,
    length_chachaKeystream key nonce pt.length hk hn]

theorem mem_aeadEncrypt_lt (key nonce pt : List Nat) (hpt : ∀ b ∈ pt, b < 256) :
    ∀ b ∈ aeadEncrypt key nonce pt, b < 256 := by
  intro b hb
  simp only [aeadEncrypt, List.mem_append] at hb
  rcases hb with hb | hb
  · exact mem_xorBytes_lt pt _ hpt (mem_chachaKeystream_lt key nonce pt.length) b hb
  · exact mem_poly1305_lt _ _ b hb

/-- Round trip at the payload level: decrypting the
    `ciphertext‖tag‖nonce` payload the register closure builds, with the
    same key, splits the last 12 bytes off as the nonce and recovers the
    plaintext, invoking the cipher exactly once. -/
theorem decryptPayloadRun_roundtrip (key nonce pt : List Nat)
    (hk : key.length = 32) (hn : nonce.length = 12) :
    decryptPayloadRun key (aeadEncrypt key nonce pt ++ nonce) = (.ok pt, 1) := by
  have hlen : (aeadEncrypt key nonce pt).length = pt.length + 16 :=
    length_aeadEncrypt key nonce pt hk hn
  have htot : (aeadEncrypt key nonce pt ++ nonce).length = pt.length + 28 := by
    simp [hlen, hn]
  simp only [decryptPayloadRun, htot]
  rw [if_neg (by omega)]
  have hcut : pt.length + 28 - 12 = (aeadEncrypt key nonce pt).length := by omega
  rw [hcut, List.take_left, List.drop_left,
    aeadDecrypt_aeadEncrypt key nonce pt hk hn]

/-! ## Claim theorems -/

/-- **C1.** For every passphrase `P` and every 32-byte secret `S`,
decrypting with the key derived from `P` and the stored salt the payload
produced by encrypting `S` with the key derived from the same `P` and salt
returns exactly `S`: the key is derived deterministically by
PBKDF2-HMAC-SHA256 with 100,000 iterations over the 16-byte salt,
encryption outputs ciphertext-with-tag followed by the 12-byte nonce, and
decryption splits off the last 12 bytes as the nonce and recovers the
plaintext. -/
theorem claim_C1_vault_roundtrip (P S salt nonce : List Nat)
    (hS : S.length = 32) (hSb : ∀ b ∈ S, b < 256)
    (hsalt : salt.length = 16) (hsaltb : ∀ b ∈ salt, b < 256)
    (hnonce : nonce.length = 12) (hnb : ∀ b ∈ nonce, b < 256) :
    loginDecrypt (registerEncrypt P salt S nonce) P = .ok S := by
  have hk : (deriveKey P salt).length = 32 := length_deriveKey P salt
  have hpayb : ∀ b ∈ aeadEncrypt (deriveKey P salt) nonce S ++ nonce, b < 256 := by
    intro b hb
    rcases List.mem_append.mp hb with hb | hb
    · exact mem_aeadEncrypt_lt _ _ _ hSb b hb
    · exact hnb b hb
  simp only [loginDecrypt, loginDecryptRun, registerEncrypt,
    b64Decode_b64Encode salt hsaltb, nip49Tag_isPrefixOf_append, if_true,
    drop7_nip49Tag_append, b64Decode_b64Encode _ hpayb,
    decryptPayloadRun_roundtrip (deriveKey P salt) nonce S hk hnonce]

/-- Witness for C1 at a concrete passphrase, salt, secret and nonce. -/
theorem claim_C1_witness :
    loginDecrypt
      (registerEncrypt [112, 119] (List.replicate 16 7) (List.replicate 32 42)
        (List.replicate 12 3)) [112, 119] = .ok (List.replicate 32 42) :=
  claim_C1_vault_roundtrip [112, 119] (List.replicate 32 42) (List.replicate 16 7)
    (List.replicate 12 3) (by decide) (by decide) (by decide) (by decide) (by decide) (by decide)

/-- **C4.** Decrypting a stored vault record validates the payload before
invoking the authenticated-decryption primitive: for every stored record
(one whose salt field decodes), if the `encrypted_secret_key` string does
not start with the fixed `#nip49:` scheme tag, loading fails with the
unsupported-format error, and if the base64-decoded payload is shorter
than the 12-byte nonce length, decryption fails with the
malformed-payload error; in both cases the authenticated cipher is never
invoked (the instrumentation counter stays 0). -/
theorem claim_C4_validation_before_cipher :
    (∀ (cfg : Config) (pass saltBytes : List Nat),
      b64Decode cfg.salt = some saltBytes →
      nip49Tag.isPrefixOf cfg.encrypted_secret_key = false →
      loginDecryptRun cfg pass = (.error .unsupportedFormat, 0)) ∧
    (∀ (cfg : Config) (pass saltBytes decoded : List Nat),
      b64Decode cfg.salt = some saltBytes →
      nip49Tag.isPrefixOf cfg.encrypted_secret_key = true →
      b64Decode (cfg.encrypted_secret_key.drop 7) = some decoded →
      decoded.length < 12 →
      loginDecryptRun cfg pass = (.error .malformedPayload, 0)) := by
  constructor
  · intro cfg pass saltBytes hsalt hpre
    simp [loginDecryptRun, hsalt, hpre]
  · intro cfg pass saltBytes decoded hsalt hpre hdec hlen
    simp [loginDecryptRun, decryptPayloadRun, hsalt, hpre, hdec, hlen]

/-- Witness for C4: a record with a bad scheme tag fails with the
unsupported-format error, and a record with a well-formed tag but a
3-byte payload fails with the malformed-payload error; neither invokes
the cipher. -/
theorem claim_C4_witness :
    loginDecryptRun ⟨"xyz".toList, "AAAA".toList⟩ [] = (.error .unsupportedFormat, 0) ∧
    loginDecryptRun ⟨("#nip49:AAAA").toList, "AAAA".toList⟩ [] = (.error .malformedPayload, 0) :=
  ⟨claim_C4_validation_before_cipher.1 ⟨"xyz".toList, "AAAA".toList⟩ [] [0, 0, 0]
      (by decide) (by decide),
    claim_C4_validation_before_cipher.2 ⟨("#nip49:AAAA").toList, "AAAA".toList⟩ [] [0, 0, 0]
      [0, 0, 0] (by decide) (by decide) (by decide) (by decide)⟩

/-- **C5.** Decryption failure is opaque: the authenticated cipher fails
exactly when the payload is too short to carry a tag or the recomputed
Poly1305 tag differs from the stored one; for every payload of at least
12 bytes on which the cipher fails (wrong passphrase, corrupted file, or
tampering), the login closure reports the single `decryptionFailed`
error, and two such failures are indistinguishable to the caller: both
map to the same error value, whatever the key or the corruption. -/
theorem claim_C5_decryption_failure_is_opaque :
    (∀ key nonce ctTag : List Nat,
      aeadDecrypt key nonce ctTag = none ↔
        (ctTag.length < 16 ∨
          poly1305 ((chachaBlock key nonce 0).take 32)
              (macData (ctTag.take (ctTag.length - 16))) ≠
            ctTag.drop (ctTag.length - 16))) ∧
    (∀ key payload : List Nat, 12 ≤ payload.length →
      aeadDecrypt key (payload.drop (payload.length - 12))
          (payload.take (payload.length - 12)) = none →
      decryptPayload key payload = .error .decryptionFailed) ∧
    (∀ key key' payload payload' : List Nat,
      12 ≤ payload.length → 12 ≤ payload'.length →
      aeadDecrypt key (payload.drop (payload.length - 12))
          (payload.take (payload.length - 12)) = none →
      aeadDecrypt key' (payload'.drop (payload'.length - 12))
          (payload'.take (payload'.length - 12)) = none →
      decryptPayload key payload = decryptPayload key' payload') := by
  have hchar : ∀ key nonce ctTag : List Nat,
      aeadDecrypt key nonce ctTag = none ↔
        (ctTag.length < 16 ∨
          poly1305 ((chachaBlock key nonce 0).take 32)
              (macData (ctTag.take (ctTag.length - 16))) ≠
            ctTag.drop (ctTag.length - 16)) := by
    intro key nonce ctTag
    by_cases hlen : ctTag.length < 16
    · simp [aeadDecrypt, hlen]
    · by_cases htag : poly1305 ((chachaBlock key nonce 0).take 32)
          (macData (ctTag.take (ctTag.length - 16))) = ctTag.drop (ctTag.length - 16)
      · simp [aeadDecrypt, hlen, htag]
      · simp [aeadDecrypt, hlen, htag]
  have hfail : ∀ key payload : List Nat, 12 ≤ payload.length →
      aeadDecrypt key (payload.drop (payload.length - 12))
          (payload.take (payload.length - 12)) = none →
      decryptPayload key payload = .error .decryptionFailed := by
    intro key payload hlen hnone
    simp only [decryptPayload, decryptPayloadRun]
    rw [if_neg (by omega), hnone]
  exact ⟨hchar, hfail, fun key key' payload payload' h1 h2 hn1 hn2 =>
    (hfail key payload h1 hn1).trans (hfail key' payload' h2 hn2).symm⟩

/-- Witness for C5: a 12-byte payload leaves an empty ciphertext-and-tag,
on which the cipher fails, and the closure reports `decryptionFailed`. -/
theorem claim_C5_witness :
    decryptPayload (List.replicate 32 0) (List.replicate 12 0) =
      .error .decryptionFailed :=
  claim_C5_decryption_failure_is_opaque.2.1 (List.replicate 32 0) (List.replicate 12 0)
    (by decide) (by decide)

/-- **C2.** In the Decide step of relay resolution (with every add
succeeding), a URL is selected — added as a relay — if and only if some
parsed descriptor carries it with policy `Write` or unspecified; a
`Read`-only descriptor alone is never selected.  In particular, a
relay-list event tagging `wss://a` as write and `wss://b` as read
resolves to the relay set `["wss://a"]`. -/
theorem claim_C2_decide_step_selection :
    (∀ (nip65 : List (String × Option String)) (url : String),
      url ∈ selectNip65 (fun _ => true) nip65 ↔
        ∃ p, (url, p) ∈ nip65 ∧ (p = some "write" ∨ p = none)) ∧
    connectToRelaysWithNip65 "me"
        [RecvItem.ev ⟨10002, "me",
          [NTag.relayMetadata "wss://a" (some .write),
            NTag.relayMetadata "wss://b" (some .read)], ""⟩] 1
        (fun _ => true) = .ok ["wss://a"] := by
  constructor
  · intro nip65 url
    induction nip65 with
    | nil => simp [selectNip65]
    | cons hd tl ih =>
      obtain ⟨u, q⟩ := hd
      by_cases hq : q = some "write" ∨ q = none
      · rw [show selectNip65 (fun _ => true) ((u, q) :: tl) =
            u :: selectNip65 (fun _ => true) tl by simp [selectNip65, hq]]
        simp only [List.mem_cons, ih]
        constructor
        · rintro (rfl | ⟨p, hp, hpred⟩)
          · exact ⟨q, Or.inl rfl, hq⟩
          · exact ⟨p, Or.inr hp, hpred⟩
        · rintro ⟨p, hp | hp, hpred⟩
          · rw [Prod.mk.injEq] at hp
            exact Or.inl hp.1
          · exact Or.inr ⟨p, hp, hpred⟩
      · rw [show selectNip65 (fun _ => true) ((u, q) :: tl) =
            selectNip65 (fun _ => true) tl by simp [selectNip65, hq]]
        rw [ih]
        constructor
        · rintro ⟨p, hp, hpred⟩
          exact ⟨p, List.mem_cons_of_mem _ hp, hpred⟩
        · rintro ⟨p, hp, hpred⟩
          rcases List.mem_cons.mp hp with hp' | hp'
          · rw [Prod.mk.injEq] at hp'
            exact absurd (hp'.2 ▸ hpred) hq
          · exact ⟨p, hp', hpred⟩
  · decide

/-- **C3 counterexample.**  The claim asserts that a received relay-list
event whose *selected* subset is empty (here: a single read-only relay)
falls back to the default list; the code only falls back when the
*parsed* list is empty, so this run fails with `noReachableRelays`
instead of resolving to the default list, although every add succeeds. -/
theorem claim_C3_counterexample :
    connectToRelaysWithNip65 "me"
        [RecvItem.ev ⟨10002, "me", [NTag.relayMetadata "wss://b" (some .read)], ""⟩] 1
        (fun _ => true) = .error .noReachableRelays ∧
    connectToRelaysWithNip65 "me"
        [RecvItem.ev ⟨10002, "me", [NTag.relayMetadata "wss://b" (some .read)], ""⟩] 1
        (fun _ => true) ≠ .ok fallbackRelays := by
  constructor
  · decide
  · decide

/-- **C3 (amended).** The resolver falls back to the fixed default relay
list exactly when no relay-list event was received or the *parsed*
descriptor list is empty, and then resolves to the default list modulo
per-relay add failures.  When an event was received and its parsed
descriptor list is nonempty, the NIP-65 branch is taken even if the
Decide step selects nothing; no fallback occurs, and an empty selection
then fails with `noReachableRelays`. -/
theorem claim_C3_fallback_on_missing_event :
    (∀ (received : Bool) (nip65 : List (String × Option String)) (addOk : String → Bool),
      (received = false ∨ nip65 = []) →
      resolveDecide received nip65 addOk =
        (if (fallbackRelays.filter addOk).length = 0 then .error .noReachableRelays
         else .ok (fallbackRelays.filter addOk))) ∧
    (∀ (nip65 : List (String × Option String)) (addOk : String → Bool),
      nip65 ≠ [] →
      resolveDecide true nip65 addOk =
        (if (selectNip65 addOk nip65).length = 0 then .error .noReachableRelays
         else .ok (selectNip65 addOk nip65))) := by
  constructor
  · intro received nip65 addOk h
    rcases h with rfl | rfl
    · simp [resolveDecide, resolvedPool]
    · simp [resolveDecide, resolvedPool]
  · intro nip65 addOk h
    simp [resolveDecide, resolvedPool, h]

/-- Witness for the amended C3: with no event received and every add
succeeding, the resolver commits exactly the three hardcoded fallback
relays; with a received single read-only descriptor and every add
succeeding, it commits nothing and fails. -/
theorem claim_C3_witness :
    resolveDecide false [] (fun _ => true) =
      (if (fallbackRelays.filter (fun _ => true)).length = 0 then .error .noReachableRelays
       else .ok (fallbackRelays.filter (fun _ => true))) ∧
    resolveDecide true [("wss://b", some "read")] (fun _ => true) =
      (if (selectNip65 (fun _ => true) [("wss://b", some "read")]).length = 0 then
        .error .noReachableRelays
       else .ok (selectNip65 (fun _ => true) [("wss://b", some "read")])) :=
  ⟨claim_C3_fallback_on_missing_event.1 false [] (fun _ => true) (Or.inl rfl),
    claim_C3_fallback_on_missing_event.2 [("wss://b", some "read")] (fun _ => true)
      (by decide)⟩

/-- **C8.** If after the fallback step the number of successfully added
relays is zero, relay resolution fails with the `noReachableRelays`
error and does not return a relay set; individual per-relay add failures
do not abort resolution as long as the final pool is nonempty, in which
case the resolver returns exactly the pool of successful adds. -/
theorem claim_C8_no_reachable_relays :
    ∀ (received : Bool) (nip65 : List (String × Option String)) (addOk : String → Bool),
      (resolveDecide received nip65 addOk = .error .noReachableRelays ↔
        resolvedPool received nip65 addOk = []) ∧
      (resolvedPool received nip65 addOk ≠ [] →
        resolveDecide received nip65 addOk = .ok (resolvedPool received nip65 addOk)) := by
  intro received nip65 addOk
  by_cases hp : (resolvedPool received nip65 addOk).length = 0
  · rw [List.length_eq_zero] at hp
    simp [resolveDecide, hp]
  · refine ⟨⟨fun h => ?_, fun h => absurd (by simp [h]) hp⟩, fun _ => ?_⟩
    · exfalso
      simp [resolveDecide, hp] at h
    · simp [resolveDecide, hp]

/-- Witness for C8: with one write relay whose add fails and one whose add
succeeds, resolution returns the single reachable relay; with every add
failing, the pool is empty and resolution fails. -/
theorem claim_C8_witness :
    (resolveDecide true [("wss://a", some "write"), ("wss://b", some "write")]
        (fun u => u = "wss://b") = .error .noReachableRelays ↔
      resolvedPool true [("wss://a", some "write"), ("wss://b", some "write")]
        (fun u => u = "wss://b") = []) ∧
    resolveDecide true [("wss://a", some "write"), ("wss://b", some "write")]
        (fun u => u = "wss://b") =
      .ok (resolvedPool true [("wss://a", some "write"), ("wss://b", some "write")]
        (fun u => u = "wss://b")) :=
  ⟨(claim_C8_no_reachable_relays true [("wss://a", some "write"), ("wss://b", some "write")]
      (fun u => u = "wss://b")).1,
    (claim_C8_no_reachable_relays true [("wss://a", some "write"), ("wss://b", some "write")]
      (fun u => u = "wss://b")).2 (by decide)⟩

set_option maxRecDepth 8192 in
/-- **C6.** For every status text, publishing is rejected locally — before
any network call is attempted — if and only if the text exceeds
`MAX_STATUS_LENGTH = 140` characters, counted as Unicode characters
(`chars().count()`): a 140-character text is accepted (the kind-30315
event is built and sent) and a 141-character text is rejected. -/
theorem claim_C6_status_length_boundary :
    (∀ s : String, publishStatusStep s = .rejected ↔ MAX_STATUS_LENGTH < s.length) ∧
    publishStatusStep (String.mk (List.replicate 140 'a')) =
      .sendEvent 30315 (String.mk (List.replicate 140 'a')) "general" ∧
    publishStatusStep (String.mk (List.replicate 141 'a')) = .rejected := by
  refine ⟨fun s => ?_, by decide, by decide⟩
  constructor
  · intro hr
    by_contra hle
    simp [publishStatusStep, hle] at hr
  · intro hlen
    simp [publishStatusStep, hlen]

/-- **C7 counterexample.**  The claim asserts that when no contact-list
event arrives during login the opened client is shut down.  The failure
path takes the client out of the shared state, where the freshly opened
client was never stored: for a login started from the logged-out initial
state (stored client `none`) with a successful decrypt, successful relay
resolution and no contact-list event, `Client::shutdown` is not invoked,
although the login does fail and roll back. -/
theorem claim_C7_counterexample :
    (loginTask initialState (.ok (List.replicate 32 0)) true false [] (fun _ => true)
        none []).shutdownCalled = false ∧
    (loginTask initialState (.ok (List.replicate 32 0)) true false [] (fun _ => true)
        none []).state.is_logged_in = false ∧
    initialState.nostr_client = none := by
  refine ⟨by decide, by decide, rfl⟩

/-- **C7 (amended).** If no contact-list event for the identity's own key
arrives before the bounded wait elapses, the login fails and rolls back:
`is_logged_in` and `my_keys` keep their pre-login values (false / none
for a session started logged out), no client is retained in the state,
and `Client::shutdown` is invoked exactly on a client that was already
stored in the shared state — the freshly opened client is dropped
without a shutdown call.  An empty set of collected statuses is benign:
with a contact list present, the login completes with an
empty-timeline message instead of failing. -/
theorem claim_C7_contact_list_fatal_empty_timeline_benign :
    (∀ (st : AppState) (keysRes : Except CryptoErr (List Nat)) (parseOk : Bool)
      (received65 : Bool) (nip65 : List (String × Option String)) (addOk : String → Bool)
      (collected : List (String × String × String)),
      (loginTask st keysRes parseOk received65 nip65 addOk none collected).state.is_logged_in
          = st.is_logged_in ∧
      (loginTask st keysRes parseOk received65 nip65 addOk none collected).state.my_keys
          = st.my_keys ∧
      (loginTask st keysRes parseOk received65 nip65 addOk none collected).state.nostr_client
          = none ∧
      (loginTask st keysRes parseOk received65 nip65 addOk none collected).shutdownCalled
          = st.nostr_client.isSome) ∧
    (∀ (st : AppState) (sk : List Nat) (received65 : Bool)
      (nip65 : List (String × Option String)) (addOk : String → Bool)
      (followed relays : List String),
      resolveDecide received65 nip65 addOk = .ok relays →
      (loginTask st (.ok sk) true received65 nip65 addOk (some followed) []).state.is_logged_in
          = true ∧
      (loginTask st (.ok sk) true received65 nip65 addOk
          (some followed) []).state.status_timeline_display =
        (if followed.isEmpty then "No timeline available."
         else "No NIP-38 statuses found for followed users.")) := by
  constructor
  · intro st keysRes parseOk received65 nip65 addOk collected
    rcases keysRes with e | sk
    · simp [loginTask]
    · cases parseOk
      · simp [loginTask]
      · rcases hres : resolveDecide received65 nip65 addOk with e | relays
        · simp [loginTask, hres]
        · simp [loginTask, hres]
  · intro st sk received65 nip65 addOk followed relays hres
    simp [loginTask, hres, loginTimelineDisplay]

/-- Witness for the amended C7: a login from the initial state with a
contact list containing one followee and no collected statuses succeeds
and shows the empty-timeline message; the rollback half is instantiated
at the initial state with no contact-list event. -/
theorem claim_C7_witness :
    ((loginTask initialState (.error .base64Error) false false [] (fun _ => false)
        none []).state.is_logged_in = initialState.is_logged_in ∧
      (loginTask initialState (.error .base64Error) false false [] (fun _ => false)
        none []).state.my_keys = initialState.my_keys ∧
      (loginTask initialState (.error .base64Error) false false [] (fun _ => false)
        none []).state.nostr_client = none ∧
      (loginTask initialState (.error .base64Error) false false [] (fun _ => false)
        none []).shutdownCalled = initialState.nostr_client.isSome) ∧
    ((loginTask initialState (.ok (List.replicate 32 0)) true false [] (fun _ => true)
        (some ["npub1x"]) []).state.is_logged_in = true ∧
      (loginTask initialState (.ok (List.replicate 32 0)) true false [] (fun _ => true)
        (some ["npub1x"]) []).state.status_timeline_display =
        (if (["npub1x"] : List String).isEmpty then "No timeline available."
         else "No NIP-38 statuses found for followed users.")) :=
  ⟨claim_C7_contact_list_fatal_empty_timeline_benign.1 initialState (.error .base64Error)
      false false [] (fun _ => false) [],
    claim_C7_contact_list_fatal_empty_timeline_benign.2 initialState (List.replicate 32 0)
      false [] (fun _ => true) ["npub1x"] fallbackRelays (by decide)⟩

/-- **C9.** Every bounded event collection — relay-list discovery,
contact-list fetch, timeline fetch — unsubscribes its subscription before
returning, on every exit path: whether the deadline elapsed, the
termination condition was met early, or the notification stream errored
mid-wait, the network-action trace is always `subscribe` followed by
`unsubscribe` of the same subscription id. -/
theorem claim_C9_always_unsubscribe :
    (∀ (pk : String) (stream : List RecvItem) (budget : Nat),
      (relayListCollect pk stream budget).2 = [.subscribeAct 0, .unsubscribeAct 0]) ∧
    (∀ (pk : String) (stream : List RecvItem) (budget : Nat),
      (contactListCollect pk stream budget).2 = [.subscribeAct 1, .unsubscribeAct 1]) ∧
    (∀ (stream : List RecvItem) (budget : Nat),
      (timelineCollect stream budget).2 = [.subscribeAct 2, .unsubscribeAct 2]) := by
  refine ⟨fun pk stream budget => ?_, fun pk stream budget => ?_, fun stream budget => ?_⟩
  · cases hex : (relayListLoop pk (stream.take budget)).2.2 <;>
      simp [relayListCollect, hex]
  · cases hex : (contactListLoop pk (stream.take budget)).2.2 <;>
      simp [contactListCollect, hex]
  · cases hex : (timelineLoop (stream.take budget) []).2 <;>
      simp [timelineCollect, hex]

/-- **C10.** Registration first checks that the passphrase equals the
confirmation passphrase; when they differ, registration aborts before
parsing the secret key, deriving any key, or writing the vault file —
the only state change is that the loading flag is cleared and a repaint
is requested, and the on-disk vault record (if any) is unchanged. -/
theorem claim_C10_register_confirmation_check :
    ∀ (pass confirm secretInput : String) (parseSecret : String → Option (List Nat))
      (salt nonce : List Nat) (st : AppState),
      pass ≠ confirm →
      registerTask pass confirm secretInput parseSecret salt nonce st =
        { state := { st with is_loading := false, should_repaint := true },
          written := none, parsedSecret := false, derivedKey := false } := by
  intro pass confirm secretInput parseSecret salt nonce st h
  simp [registerTask, h]

/-- Witness for C10 at concrete mismatching passphrases. -/
theorem claim_C10_witness :
    registerTask "correct horse" "wrong horse" "nsec1..." (fun _ => none) [] []
        initialState =
      { state := { initialState with is_loading := false, should_repaint := true },
        written := none, parsedSecret := false, derivedKey := false } :=
  claim_C10_register_confirmation_check "correct horse" "wrong horse" "nsec1..."
    (fun _ => none) [] [] initialState (by decide)

end NostrStatus
